import Mathlib

/-!
Shallow embedding of the zfsbackrest repository core: the manifest store
(`repository/backup.go`, `repository/orphan.go`, `repository/store.go`), the
retry/FSM runtime (`fsm/fsm.go`, `fsm/retry.go`), the delete and backup
orchestrators (`storage/s3_strong.go` delete FSM, the backup FSM) and the
restore driver (`zfsbackrest/restore.go`).

Modelling conventions:
* ULIDs are naturals ordered like the 128-bit lexicographic ULID order.
* `time.Time` instants and `time.Duration` values are integers (nanoseconds);
  `time.Now()` is an explicit `now` parameter.
* Go maps (`Backups`, `Orphans`) are association lists; map-key uniqueness is
  a `Nodup` hypothesis where a proof needs it.
* Fallible Go functions return `Except`.
* 64-bit overflow is modelled explicitly (`wrap64`) where the Go code can
  overflow (the retry backoff shift/multiply).
-/

namespace Zfsbackrest

/-- `repository.BackupType`: a Go string type with three known constants; any
other string falls through to the `default` branches of the switches. -/
inductive BackupType where
  | full
  | diff
  | incr
  | unknown (s : String)
deriving DecidableEq, Repr

/-- `repository.Backup` (the second, current version in `backup.go`, with
`Dataset` and `Size`). -/
structure Backup where
  id : Nat
  type : BackupType
  createdAt : Int
  dependsOn : Option Nat
  dataset : String
  size : Int
deriving DecidableEq, Repr

/-- `repository.Backups`, the Go map `ulid.ULID → *Backup`. -/
abbrev Backups := List (Nat × Backup)

/-- Map lookup `bs[id]`. -/
def lookupB (bs : Backups) (id : Nat) : Option Backup :=
  (bs.find? (fun p => p.1 == id)).map (fun p => p.2)

/-- `repository.OrphanReason`. -/
inductive OrphanReason where
  | uncommitted
  | startedDeletion
deriving DecidableEq, Repr

/-- `repository.Orphan`. -/
structure Orphan where
  backup : Backup
  reason : OrphanReason
deriving DecidableEq, Repr

/-- `repository.Orphans`, the Go map `ulid.ULID → *Orphan`. -/
abbrev Orphans := List (Nat × Orphan)

/-- Map lookup `orphans[id]`. -/
def lookupO (os : Orphans) (id : Nat) : Option Orphan :=
  (os.find? (fun p => p.1 == id)).map (fun p => p.2)

/-- `config.Expiry`: per-kind TTLs (durations in nanoseconds). -/
structure Expiry where
  full : Int
  diff : Int
  incr : Int
deriving DecidableEq, Repr

/-- The backup-validation error variables of `repository/backup.go`. -/
inductive VErr where
  | createdInFuture
  | fullHasParent
  | diffNoParent
  | diffParentNotFull
  | incrNoParent
  | incrParentNotDiff
  | unknownType
  | idMismatch
  | parentNotFound
deriving DecidableEq, Repr

/-- Rank of a backup type along the `Incr → Diff → Full` chain; used only as
the termination measure of the chain-recursive functions (`Validate`,
`Expired`, `TimeTillExpiry` recurse strictly down this rank). -/
def typeRank : BackupType → Nat
  | .full => 0
  | .diff => 1
  | .incr => 2
  | .unknown _ => 3

/-- Termination measure: the type rank of the backup stored at `id`. -/
def idRank (bs : Backups) (id : Nat) : Nat :=
  match lookupB bs id with
  | none => 0
  | some b => typeRank b.type

/-- `Backups.Validate` (`repository/backup.go`): validates the backup at `id`
and, recursively, its parent chain. -/
def validate (now : Int) (bs : Backups) (id : Nat) : Except VErr Unit :=
  match hb : lookupB bs id with
  | none => .error .parentNotFound
  | some b =>
    if b.id ≠ id then .error .idMismatch
    else if now < b.createdAt then .error .createdInFuture
    else
      match ht : b.type with
      | .full => if b.dependsOn.isSome then .error .fullHasParent else .ok ()
      | .diff =>
        match b.dependsOn with
        | none => .error .diffNoParent
        | some pid =>
          match hpb : lookupB bs pid with
          | none => .error .parentNotFound
          | some pb =>
            if hpt : pb.type ≠ BackupType.full then .error .diffParentNotFull
            else validate now bs pid
      | .incr =>
        match b.dependsOn with
        | none => .error .incrNoParent
        | some pid =>
          match hpb : lookupB bs pid with
          | none => .error .parentNotFound
          | some pb =>
            if hpt : pb.type ≠ BackupType.diff then .error .incrParentNotDiff
            else validate now bs pid
      | .unknown _ => .error .unknownType
termination_by idRank bs id
decreasing_by
  · have hf : pb.type = BackupType.full := by
      by_contra hc
      exact hpt hc
    simp [idRank, hb, hpb, ht, hf, typeRank]
  · have hf : pb.type = BackupType.diff := by
      by_contra hc
      exact hpt hc
    simp [idRank, hb, hpb, ht, hf, typeRank]

/-- Inversion of a successful `validate` call: the backup is present under its
own id, is not from the future, and its parent link is well-typed with a
recursively valid parent. -/
theorem validate_ok_elim (now : Int) (bs : Backups) (id : Nat) (u : Unit)
    (h : validate now bs id = .ok u) :
    ∃ b, lookupB bs id = some b ∧ b.id = id ∧ b.createdAt ≤ now ∧
      ((b.type = .full ∧ b.dependsOn = none) ∨
       (∃ pid pb, b.type = .diff ∧ b.dependsOn = some pid ∧
         lookupB bs pid = some pb ∧ pb.type = .full ∧ validate now bs pid = .ok ()) ∨
       (∃ pid pb, b.type = .incr ∧ b.dependsOn = some pid ∧
         lookupB bs pid = some pb ∧ pb.type = .diff ∧ validate now bs pid = .ok ())) := by
  rw [validate] at h
  split at h
  · exact absurd h (by simp)
  · rename_i b hb
    refine ⟨b, hb, ?_⟩
    split at h
    · exact absurd h (by simp)
    · rename_i hid
      split at h
      · exact absurd h (by simp)
      · rename_i hnow
        refine ⟨not_ne_iff.mp hid, not_lt.mp hnow, ?_⟩
        split at h
        · rename_i ht
          refine Or.inl ⟨ht, ?_⟩
          split at h
          · exact absurd h (by simp)
          · rename_i hdep
            simpa using hdep
        · rename_i ht
          split at h
          · exact absurd h (by simp)
          · rename_i pid hdep
            split at h
            · exact absurd h (by simp)
            · rename_i pb hpb
              split at h
              · exact absurd h (by simp)
              · rename_i hpt
                exact Or.inr (Or.inl ⟨pid, pb, ht, hdep, hpb, not_ne_iff.mp hpt, h⟩)
        · rename_i ht
          split at h
          · exact absurd h (by simp)
          · rename_i pid hdep
            split at h
            · exact absurd h (by simp)
            · rename_i pb hpb
              split at h
              · exact absurd h (by simp)
              · rename_i hpt
                exact Or.inr (Or.inr ⟨pid, pb, ht, hdep, hpb, not_ne_iff.mp hpt, h⟩)
        · exact absurd h (by simp)

/-- `Backups.Expired` (`repository/backup.go`): a backup is expired when its
own TTL has lapsed or when its parent is expired; validation errors
propagate.  (The `none` branch after a successful `validate` is unreachable;
in Go it would be a nil-pointer dereference.) -/
def expired (now : Int) (exp : Expiry) (bs : Backups) (id : Nat) : Except VErr Bool :=
  match hv : validate now bs id with
  | .error e => .error e
  | .ok _ =>
    match hb : lookupB bs id with
    | none => .error .parentNotFound
    | some b =>
      match ht : b.type with
      | .full => .ok (decide (b.createdAt < now - exp.full))
      | .diff =>
        match hd : b.dependsOn with
        | none => .error .diffNoParent
        | some pid =>
          match expired now exp bs pid with
          | .error e => .error e
          | .ok parentExpired => .ok (decide (b.createdAt < now - exp.diff) || parentExpired)
      | .incr =>
        match hd : b.dependsOn with
        | none => .error .incrNoParent
        | some pid =>
          match expired now exp bs pid with
          | .error e => .error e
          | .ok parentExpired => .ok (decide (b.createdAt < now - exp.incr) || parentExpired)
      | .unknown _ => .error .unknownType
termination_by idRank bs id
decreasing_by
  · obtain ⟨b', hb', _, _, hc⟩ := validate_ok_elim now bs id _ hv
    rw [hb] at hb'
    cases hb'
    rcases hc with ⟨hf, _⟩ | ⟨pid', pb, htd, hdep, hpb, hpt, _⟩ | ⟨pid', pb, hti, hdep, hpb, hpt, _⟩
    · rw [ht] at hf; cases hf
    · rw [hd] at hdep
      cases hdep
      simp [idRank, hb, hpb, ht, hpt, typeRank]
    · rw [ht] at hti; cases hti
  · obtain ⟨b', hb', _, _, hc⟩ := validate_ok_elim now bs id _ hv
    rw [hb] at hb'
    cases hb'
    rcases hc with ⟨hf, _⟩ | ⟨pid', pb, htd, hdep, hpb, hpt, _⟩ | ⟨pid', pb, hti, hdep, hpb, hpt, _⟩
    · rw [ht] at hf; cases hf
    · rw [ht] at htd; cases htd
    · rw [hd] at hdep
      cases hdep
      simp [idRank, hb, hpb, ht, hpt, typeRank]

/-- `Backups.TimeTillExpiry` (`repository/backup.go`): minimum of the
backup's own remaining TTL (`time.Until(created_at + expiry[kind])`) and the
parent's remaining TTL. -/
def timeTillExpiry (now : Int) (exp : Expiry) (bs : Backups) (id : Nat) : Except VErr Int :=
  match hv : validate now bs id with
  | .error e => .error e
  | .ok _ =>
    match hb : lookupB bs id with
    | none => .error .parentNotFound
    | some b =>
      match ht : b.type with
      | .full => .ok (b.createdAt + exp.full - now)
      | .diff =>
        match hd : b.dependsOn with
        | none => .error .diffNoParent
        | some pid =>
          match timeTillExpiry now exp bs pid with
          | .error e => .error e
          | .ok parentExpiry =>
            if b.createdAt + exp.diff - now < parentExpiry then .ok (b.createdAt + exp.diff - now)
            else .ok parentExpiry
      | .incr =>
        match hd : b.dependsOn with
        | none => .error .incrNoParent
        | some pid =>
          match timeTillExpiry now exp bs pid with
          | .error e => .error e
          | .ok parentExpiry =>
            if b.createdAt + exp.incr - now < parentExpiry then .ok (b.createdAt + exp.incr - now)
            else .ok parentExpiry
      | .unknown _ => .error .unknownType
termination_by idRank bs id
decreasing_by
  · obtain ⟨b', hb', _, _, hc⟩ := validate_ok_elim now bs id _ hv
    rw [hb] at hb'
    cases hb'
    rcases hc with ⟨hf, _⟩ | ⟨pid', pb, htd, hdep, hpb, hpt, _⟩ | ⟨pid', pb, hti, hdep, hpb, hpt, _⟩
    · rw [ht] at hf; cases hf
    · rw [hd] at hdep
      cases hdep
      simp [idRank, hb, hpb, ht, hpt, typeRank]
    · rw [ht] at hti; cases hti
  · obtain ⟨b', hb', _, _, hc⟩ := validate_ok_elim now bs id _ hv
    rw [hb] at hb'
    cases hb'
    rcases hc with ⟨hf, _⟩ | ⟨pid', pb, htd, hdep, hpb, hpt, _⟩ | ⟨pid', pb, hti, hdep, hpb, hpt, _⟩
    · rw [ht] at hf; cases hf
    · rw [ht] at htd; cases htd
    · rw [hd] at hdep
      cases hdep
      simp [idRank, hb, hpb, ht, hpt, typeRank]

/-- `repository.Store` (`store.go`). -/
structure Store where
  version : Int
  createdAt : Int
  backups : Backups
  orphans : Orphans
  encryption : String
  managedDatasets : List String
  hash : Option String
deriving DecidableEq, Repr

/-- The store-validation error variables of `repository/store.go`. -/
inductive StoreErr where
  | invalidVersion
  | storeCreatedInFuture
  | backupInOrphan
  | backupValidation (e : VErr)
deriving DecidableEq, Repr

/-- The orphans/backups disjointness scan of `Store.Validate`. -/
def orphanInBackups (s : Store) : Bool :=
  s.orphans.any (fun p => (lookupB s.backups p.1).isSome)

/-- The per-backup validation loop of `Store.Validate`. -/
def validateBackupsFrom (now : Int) (bs : Backups) : List (Nat × Backup) → Except StoreErr Unit
  | [] => .ok ()
  | p :: rest =>
    match validate now bs p.1 with
    | .error e => .error (.backupValidation e)
    | .ok _ => validateBackupsFrom now bs rest

/-- `Store.Validate` (`repository/store.go`). -/
def Store.validate (now : Int) (s : Store) : Except StoreErr Unit :=
  if s.version ≠ 1 then .error .invalidVersion
  else if now < s.createdAt then .error .storeCreatedInFuture
  else if orphanInBackups s then .error .backupInOrphan
  else validateBackupsFrom now s.backups s.backups

/-- Association-list lookup finds a member when the keys are unique (Go map
semantics). -/
theorem lookupB_of_mem_nodup (bs : Backups) (k : Nat) (v : Backup)
    (hnd : (bs.map Prod.fst).Nodup) (hmem : (k, v) ∈ bs) :
    lookupB bs k = some v := by
  induction bs with
  | nil => cases hmem
  | cons q rest ih =>
    rcases List.mem_cons.mp hmem with hq | hrest
    · rw [← hq]
      simp [lookupB, List.find?]
    · have hk : (q.1 == k) = false := by
        have hkin : k ∈ rest.map Prod.fst := List.mem_map.mpr ⟨(k, v), hrest, rfl⟩
        have hq1 : q.1 ∉ rest.map Prod.fst := (List.nodup_cons.mp (by simpa using hnd)).1
        simp only [beq_eq_false_iff_ne, ne_eq]
        intro he
        exact hq1 (he ▸ hkin)
      have ih' := ih (List.nodup_cons.mp (by simpa using hnd)).2 hrest
      simpa [lookupB, List.find?, hk] using ih'

/-- A store that validates has every backup in its map individually valid. -/
theorem storeValidate_backup_ok (now : Int) (s : Store) (u : Unit)
    (h : Store.validate now s = .ok u) (k : Nat) (v : Backup)
    (hmem : (k, v) ∈ s.backups) : validate now s.backups k = .ok () := by
  unfold Store.validate at h
  split at h
  · exact absurd h (by simp)
  · split at h
    · exact absurd h (by simp)
    · split at h
      · exact absurd h (by simp)
      · have aux : ∀ (l : List (Nat × Backup)) (u : Unit),
            validateBackupsFrom now s.backups l = .ok u →
            (k, v) ∈ l → validate now s.backups k = .ok () := by
          intro l
          induction l with
          | nil => intro u _ hm; cases hm
          | cons p rest ih =>
            intro u hval hm
            rw [validateBackupsFrom] at hval
            split at hval
            · exact absurd hval (by simp)
            · rcases List.mem_cons.mp hm with hp | hr
              · rename_i u' hu'
                rw [← hp] at hu'
                cases u'
                exact hu'
              · exact ih _ hval hr
        exact aux s.backups u h hmem

/-- A validated backup with a parent link becomes expired as soon as its
parent is expired (`Backups.Expired`, diff and incr cases). -/
theorem expired_of_parent_expired (now : Int) (exp : Expiry) (bs : Backups) (id : Nat)
    (b : Backup) (pid : Nat)
    (hv : validate now bs id = .ok ())
    (hb : lookupB bs id = some b)
    (hd : b.dependsOn = some pid)
    (hp : expired now exp bs pid = .ok true) :
    expired now exp bs id = .ok true := by
  obtain ⟨b', hb', _, _, hc⟩ := validate_ok_elim now bs id _ hv
  rw [hb] at hb'
  injection hb' with hb'
  subst hb'
  rcases hc with ⟨_, hdep⟩ | ⟨pid', pb, htd, hdep, _, _, _⟩ | ⟨pid', pb, hti, hdep, _, _, _⟩
  · rw [hd] at hdep; cases hdep
  · rw [expired.eq_def]
    repeat' split
    all_goals simp_all
  · rw [expired.eq_def]
    repeat' split
    all_goals simp_all

/-- C1 (amended): for every store that passes validate, for every
parent/child pair of backups linked by `depends_on`, and for a fixed expiry
configuration and evaluation time: if `Expired` returns true for the PARENT
then `Expired` returns true for the child (the chain expires from the root
down; a child cannot outlive its parent). -/
theorem C1_parent_expired_implies_child_expired (now : Int) (exp : Expiry) (s : Store)
    (cid pid : Nat) (b : Backup)
    (hnd : (s.backups.map Prod.fst).Nodup)
    (hv : Store.validate now s = .ok ())
    (hmem : (cid, b) ∈ s.backups)
    (hdep : b.dependsOn = some pid)
    (hp : expired now exp s.backups pid = .ok true) :
    expired now exp s.backups cid = .ok true := by
  have hvb : validate now s.backups cid = .ok () :=
    storeValidate_backup_ok now s () hv cid b hmem
  exact expired_of_parent_expired now exp s.backups cid b pid hvb
    (lookupB_of_mem_nodup s.backups cid b hnd hmem) hdep hp

/-- The full backup of the C1 counterexample store: still within its TTL at
evaluation time 1000. -/
def exC1Full : Backup :=
  { id := 1, type := .full, createdAt := 600, dependsOn := none, dataset := "tank", size := 0 }

/-- The diff backup of the C1 counterexample store: past its own TTL at
evaluation time 1000, while its parent full is not. -/
def exC1Diff : Backup :=
  { id := 2, type := .diff, createdAt := 100, dependsOn := some 1, dataset := "tank", size := 0 }

/-- The backups map of the C1 counterexample store. -/
def exC1Backups : Backups := [(1, exC1Full), (2, exC1Diff)]

/-- The C1 counterexample store. -/
def exC1Store : Store :=
  { version := 1, createdAt := 0, backups := exC1Backups,
    orphans := [], encryption := "", managedDatasets := ["tank"], hash := none }

/-- The C1 counterexample expiry configuration. -/
def exC1Expiry : Expiry := { full := 500, diff := 100, incr := 50 }

/-- The C1 example store validates at any evaluation time from 600 on. -/
theorem exC1_validate_full (now : Int) (h : (600 : Int) ≤ now) :
    validate now exC1Backups 1 = .ok () := by
  have hl1 : lookupB exC1Backups 1 = some exC1Full := by
    simp [lookupB, List.find?, exC1Backups]
  rw [validate.eq_def]
  split
  · rename_i heq
    rw [hl1] at heq
    cases heq
  · rename_i b heq
    rw [hl1] at heq
    injection heq with heq
    subst heq
    simp [exC1Full]
    exact h

/-- The diff backup of the C1 example store validates. -/
theorem exC1_validate_diff (now : Int) (h : (600 : Int) ≤ now) :
    validate now exC1Backups 2 = .ok () := by
  have hl1 : lookupB exC1Backups 1 = some exC1Full := by
    simp [lookupB, List.find?, exC1Backups]
  have hl2 : lookupB exC1Backups 2 = some exC1Diff := by
    simp [lookupB, List.find?, exC1Backups]
  rw [validate.eq_def]
  split
  · rename_i heq
    rw [hl2] at heq
    cases heq
  · rename_i b heq
    rw [hl2] at heq
    injection heq with heq
    subst heq
    rw [if_neg (by simp [exC1Diff]), if_neg (by simp only [exC1Diff]; omega)]
    simp only [exC1Diff]
    split
    · rename_i heq2
      rw [hl1] at heq2
      cases heq2
    · rename_i pb heq2
      rw [hl1] at heq2
      injection heq2 with heq2
      subst heq2
      simp [exC1Full]
      exact exC1_validate_full now h

/-- The C1 example store passes `Store.Validate` from time 600 on. -/
theorem exC1_store_validate (now : Int) (h : (600 : Int) ≤ now) :
    Store.validate now exC1Store = .ok () := by
  unfold Store.validate
  rw [if_neg (by simp [exC1Store]), if_neg (by simp [exC1Store]; omega),
    if_neg (by simp [orphanInBackups, exC1Store])]
  show validateBackupsFrom now exC1Backups ((1, exC1Full) :: (2, exC1Diff) :: []) = .ok ()
  simp only [validateBackupsFrom, exC1_validate_full now h, exC1_validate_diff now h]

/-- At time 1000 the full parent is not expired. -/
theorem exC1_full_not_expired :
    expired 1000 exC1Expiry exC1Backups 1 = .ok false := by
  have hl1 : lookupB exC1Backups 1 = some exC1Full := by
    simp [lookupB, List.find?, exC1Backups]
  rw [expired.eq_def]
  split
  · rename_i e heq
    rw [exC1_validate_full 1000 (by norm_num)] at heq
    cases heq
  · split
    · rename_i heq2
      rw [hl1] at heq2
      cases heq2
    · rename_i b heq2
      rw [hl1] at heq2
      injection heq2 with heq2
      subst heq2
      simp [exC1Full, exC1Expiry]

/-- At time 1000 the diff child is expired: its own TTL lapsed. -/
theorem exC1_diff_expired :
    expired 1000 exC1Expiry exC1Backups 2 = .ok true := by
  have hl2 : lookupB exC1Backups 2 = some exC1Diff := by
    simp [lookupB, List.find?, exC1Backups]
  rw [expired.eq_def]
  split
  · rename_i e heq
    rw [exC1_validate_diff 1000 (by norm_num)] at heq
    cases heq
  · split
    · rename_i heq2
      rw [hl2] at heq2
      cases heq2
    · rename_i b heq2
      rw [hl2] at heq2
      injection heq2 with heq2
      subst heq2
      simp only [exC1Diff]
      rw [exC1_full_not_expired]
      simp [exC1Expiry]

/-- C1 counterexample: in a store that passes validate, the diff child (id 2)
of the full parent (id 1) is expired at evaluation time 1000 while the parent
is not, refuting the claim `expired(child) = true implies
expired(parent) = true`. -/
theorem C1_counterexample :
    Store.validate 1000 exC1Store = .ok () ∧
    (2, exC1Diff) ∈ exC1Store.backups ∧
    exC1Diff.dependsOn = some 1 ∧
    expired 1000 exC1Expiry exC1Store.backups 2 = .ok true ∧
    expired 1000 exC1Expiry exC1Store.backups 1 = .ok false := by
  refine ⟨exC1_store_validate 1000 (by norm_num), ?_, ?_, ?_, ?_⟩
  · show (2, exC1Diff) ∈ exC1Backups
    simp [exC1Backups]
  · simp [exC1Diff]
  · show expired 1000 exC1Expiry exC1Backups 2 = .ok true
    exact exC1_diff_expired
  · show expired 1000 exC1Expiry exC1Backups 1 = .ok false
    exact exC1_full_not_expired

/-- At time 2000 the full parent is expired. -/
theorem exC1_full_expired_at_2000 :
    expired 2000 exC1Expiry exC1Backups 1 = .ok true := by
  have hl1 : lookupB exC1Backups 1 = some exC1Full := by
    simp [lookupB, List.find?, exC1Backups]
  rw [expired.eq_def]
  split
  · rename_i e heq
    rw [exC1_validate_full 2000 (by norm_num)] at heq
    cases heq
  · split
    · rename_i heq2
      rw [hl1] at heq2
      cases heq2
    · rename_i b heq2
      rw [hl1] at heq2
      injection heq2 with heq2
      subst heq2
      simp [exC1Full, exC1Expiry]

/-- Witness for the amended C1 theorem at the concrete counterexample store:
at evaluation time 2000 the parent full is expired, and the theorem then
forces the diff child to be expired as well. -/
theorem C1_parent_expired_implies_child_expired_witness :
    expired 2000 exC1Expiry exC1Store.backups 2 = .ok true := by
  refine C1_parent_expired_implies_child_expired 2000 exC1Expiry exC1Store 2 1 exC1Diff
    ?_ (exC1_store_validate 2000 (by norm_num)) ?_ ?_ ?_
  · show ((exC1Backups.map Prod.fst).Nodup)
    simp [exC1Backups]
  · show (2, exC1Diff) ∈ exC1Backups
    simp [exC1Backups]
  · simp [exC1Diff]
  · show expired 2000 exC1Expiry exC1Backups 1 = .ok true
    exact exC1_full_expired_at_2000

/-- A validated backup with a parent link has `TimeTillExpiry` bounded by the
parent's `TimeTillExpiry` (the Go code takes the minimum of its own remaining
TTL and the parent's). -/
theorem tte_le_parent (now : Int) (exp : Expiry) (bs : Backups) (id : Nat)
    (b : Backup) (pid : Nat) (tc tp : Int)
    (hv : validate now bs id = .ok ())
    (hb : lookupB bs id = some b)
    (hd : b.dependsOn = some pid)
    (hc : timeTillExpiry now exp bs id = .ok tc)
    (hp : timeTillExpiry now exp bs pid = .ok tp) :
    tc ≤ tp := by
  obtain ⟨b', hb', _, _, hcs⟩ := validate_ok_elim now bs id _ hv
  rw [hb] at hb'
  injection hb' with hb'
  subst hb'
  rw [timeTillExpiry.eq_def] at hc
  rcases hcs with ⟨_, hdep⟩ | ⟨pid', pb, htd, hdep, _, _, _⟩ | ⟨pid', pb, hti, hdep, _, _, _⟩
  · rw [hd] at hdep; cases hdep
  · rw [hd] at hdep
    injection hdep with hdep
    subst hdep
    split at hc
    · rename_i e heq
      rw [hv] at heq
      cases heq
    · split at hc
      · rename_i heq2
        rw [hb] at heq2
        cases heq2
      · rename_i b2 heq2
        rw [hb] at heq2
        injection heq2 with heq2
        subst heq2
        split at hc
        · rename_i ht4
          rw [htd] at ht4
          cases ht4
        · split at hc
          · rename_i hd4
            rw [hd] at hd4
            cases hd4
          · rename_i pid4 hd4
            rw [hd] at hd4
            injection hd4 with hd4
            subst hd4
            rw [hp] at hc
            simp only [] at hc
            split at hc
            · rename_i hlt
              injection hc with hc
              omega
            · injection hc with hc
              omega
        · rename_i ht4
          rw [htd] at ht4
          cases ht4
        · rename_i ht4
          rw [htd] at ht4
          cases ht4
  · rw [hd] at hdep
    injection hdep with hdep
    subst hdep
    split at hc
    · rename_i e heq
      rw [hv] at heq
      cases heq
    · split at hc
      · rename_i heq2
        rw [hb] at heq2
        cases heq2
      · rename_i b2 heq2
        rw [hb] at heq2
        injection heq2 with heq2
        subst heq2
        split at hc
        · rename_i ht4
          rw [hti] at ht4
          cases ht4
        · rename_i ht4
          rw [hti] at ht4
          cases ht4
        · split at hc
          · rename_i hd4
            rw [hd] at hd4
            cases hd4
          · rename_i pid4 hd4
            rw [hd] at hd4
            injection hd4 with hd4
            subst hd4
            rw [hp] at hc
            simp only [] at hc
            split at hc
            · rename_i hlt
              injection hc with hc
              omega
            · injection hc with hc
              omega
        · rename_i ht4
          rw [hti] at ht4
          cases ht4

/-- C8 (confirmed): for every store that passes validate, every child/parent
pair linked by `depends_on`, and a fixed expiry configuration and evaluation
time, `time_till_expiry(child) ≤ time_till_expiry(parent)`: a non-full
backup's `TimeTillExpiry` is the minimum of its own remaining TTL and the
parent's `TimeTillExpiry`. -/
theorem C8_child_tte_le_parent_tte (now : Int) (exp : Expiry) (s : Store)
    (cid pid : Nat) (b : Backup) (tc tp : Int)
    (hnd : (s.backups.map Prod.fst).Nodup)
    (hv : Store.validate now s = .ok ())
    (hmem : (cid, b) ∈ s.backups)
    (hdep : b.dependsOn = some pid)
    (hc : timeTillExpiry now exp s.backups cid = .ok tc)
    (hp : timeTillExpiry now exp s.backups pid = .ok tp) :
    tc ≤ tp := by
  have hvb : validate now s.backups cid = .ok () :=
    storeValidate_backup_ok now s () hv cid b hmem
  exact tte_le_parent now exp s.backups cid b pid tc tp hvb
    (lookupB_of_mem_nodup s.backups cid b hnd hmem) hdep hc hp

/-- `TimeTillExpiry` of the example full backup at time 1000: 100 remaining. -/
theorem exC1_tte_full : timeTillExpiry 1000 exC1Expiry exC1Backups 1 = .ok 100 := by
  have hl1 : lookupB exC1Backups 1 = some exC1Full := by
    simp [lookupB, List.find?, exC1Backups]
  rw [timeTillExpiry.eq_def]
  split
  · rename_i e heq
    rw [exC1_validate_full 1000 (by norm_num)] at heq
    cases heq
  · split
    · rename_i heq2
      rw [hl1] at heq2
      cases heq2
    · rename_i b heq2
      rw [hl1] at heq2
      injection heq2 with heq2
      subst heq2
      simp [exC1Full, exC1Expiry]

/-- `TimeTillExpiry` of the example diff backup at time 1000: its own lapsed
TTL (-800) wins over the parent's 100. -/
theorem exC1_tte_diff : timeTillExpiry 1000 exC1Expiry exC1Backups 2 = .ok (-800) := by
  have hl2 : lookupB exC1Backups 2 = some exC1Diff := by
    simp [lookupB, List.find?, exC1Backups]
  rw [timeTillExpiry.eq_def]
  split
  · rename_i e heq
    rw [exC1_validate_diff 1000 (by norm_num)] at heq
    cases heq
  · split
    · rename_i heq2
      rw [hl2] at heq2
      cases heq2
    · rename_i b heq2
      rw [hl2] at heq2
      injection heq2 with heq2
      subst heq2
      simp only [exC1Diff]
      rw [exC1_tte_full]
      simp [exC1Expiry]

/-- Witness for C8 at the concrete example store: the diff child's
time-till-expiry (-800) is at most the full parent's (100). -/
theorem C8_child_tte_le_parent_tte_witness : (-800 : Int) ≤ 100 := by
  refine C8_child_tte_le_parent_tte 1000 exC1Expiry exC1Store 2 1 exC1Diff (-800) 100
    ?_ (exC1_store_validate 1000 (by norm_num)) ?_ ?_ ?_ ?_
  · show ((exC1Backups.map Prod.fst).Nodup)
    simp [exC1Backups]
  · show (2, exC1Diff) ∈ exC1Backups
    simp [exC1Backups]
  · simp [exC1Diff]
  · show timeTillExpiry 1000 exC1Expiry exC1Backups 2 = .ok (-800)
    exact exC1_tte_diff
  · show timeTillExpiry 1000 exC1Expiry exC1Backups 1 = .ok 100
    exact exC1_tte_full

/-- `Backups.RemoveBackup` (`repository/backup.go`): fails when the id is
absent, otherwise deletes the map entry. -/
def Backups.removeBackup (bs : Backups) (id : Nat) : Except String Backups :=
  if (lookupB bs id).isNone then .error ("backup not found: " ++ toString id)
  else .ok (bs.filter (fun p => p.1 != id))

/-- `Store.AddBackup` (`repository/backup.go`): no-op on a structurally equal
existing entry, error on a different payload under an existing key. -/
def Store.addBackup (s : Store) (backup : Backup) : Except String Store :=
  match lookupB s.backups backup.id with
  | some existingBackup =>
    if existingBackup = backup then .ok s
    else .error ("backup " ++ toString backup.id ++ " already exists")
  | none => .ok { s with backups := (backup.id, backup) :: s.backups }

/-- `Store.AddOrphan` (`repository/orphan.go`): the candidate orphan payload
is `{ backup, reason }`. -/
def Store.addOrphan (s : Store) (backup : Backup) (reason : OrphanReason) : Except String Store :=
  match lookupO s.orphans backup.id with
  | some existingOrphan =>
    if existingOrphan = { backup := backup, reason := reason } then .ok s
    else .error ("backup " ++ toString backup.id ++ " is already an orphan")
  | none => .ok { s with orphans := (backup.id, { backup := backup, reason := reason }) :: s.orphans }

/-- `Store.RemoveOrphan` (`repository/orphan.go`): fails when the id is not an
orphan, otherwise deletes the map entry. -/
def Store.removeOrphan (s : Store) (backup : Backup) : Except String Store :=
  if (lookupO s.orphans backup.id).isNone then .error "orphan not found"
  else .ok { s with orphans := s.orphans.filter (fun p => p.1 != backup.id) }

/-- Lookup of a freshly inserted key. -/
theorem lookupB_cons_self (bs : Backups) (id : Nat) (b : Backup) :
    lookupB ((id, b) :: bs) id = some b := by
  simp [lookupB, List.find?]

/-- Lookup of a freshly inserted orphan key. -/
theorem lookupO_cons_self (os : Orphans) (id : Nat) (o : Orphan) :
    lookupO ((id, o) :: os) id = some o := by
  simp [lookupO, List.find?]

/-- After deleting a key, looking it up fails. -/
theorem lookupB_filter_self (bs : Backups) (id : Nat) :
    lookupB (bs.filter (fun p => p.1 != id)) id = none := by
  have hfind : List.find? (fun p => p.1 == id) (List.filter (fun p => p.1 != id) bs) = none := by
    rw [List.find?_eq_none]
    intro x hx
    have hx2 := (List.mem_filter.mp hx).2
    simpa using hx2
  simp [lookupB, hfind]

/-- After deleting an orphan key, looking it up fails. -/
theorem lookupO_filter_self (os : Orphans) (id : Nat) :
    lookupO (os.filter (fun p => p.1 != id)) id = none := by
  have hfind : List.find? (fun p => p.1 == id) (List.filter (fun p => p.1 != id) os) = none := by
    rw [List.find?_eq_none]
    intro x hx
    have hx2 := (List.mem_filter.mp hx).2
    simpa using hx2
  simp [lookupO, hfind]

/-- C2 (amended): the two add operations are idempotent on structurally equal
payloads (the second call is a no-op returning no error and the same store)
and fail on a different payload under an existing key; the two remove
operations are NOT silently idempotent: a second remove of the same key
returns a not-found error (leaving the store unchanged, since the error path
returns before deleting anything). -/
theorem C2_store_op_idempotency :
    (∀ (s s' : Store) (b : Backup), Store.addBackup s b = .ok s' →
      Store.addBackup s' b = .ok s') ∧
    (∀ (s : Store) (b c : Backup), lookupB s.backups b.id = some c → c ≠ b →
      Store.addBackup s b = .error ("backup " ++ toString b.id ++ " already exists")) ∧
    (∀ (s s' : Store) (b : Backup) (r : OrphanReason), Store.addOrphan s b r = .ok s' →
      Store.addOrphan s' b r = .ok s') ∧
    (∀ (s : Store) (b : Backup) (r : OrphanReason) (o : Orphan),
      lookupO s.orphans b.id = some o → o ≠ { backup := b, reason := r } →
      Store.addOrphan s b r = .error ("backup " ++ toString b.id ++ " is already an orphan")) ∧
    (∀ (bs bs' : Backups) (id : Nat), Backups.removeBackup bs id = .ok bs' →
      Backups.removeBackup bs' id = .error ("backup not found: " ++ toString id)) ∧
    (∀ (s s' : Store) (b : Backup), Store.removeOrphan s b = .ok s' →
      Store.removeOrphan s' b = .error "orphan not found") := by
  refine ⟨?_, ?_, ?_, ?_, ?_, ?_⟩
  · intro s s' b h
    unfold Store.addBackup at h ⊢
    split at h
    · rename_i ex hex
      split at h
      · rename_i hEq
        subst hEq
        injection h with h
        subst h
        simp [hex]
      · exact absurd h (by simp)
    · rename_i hex
      injection h with h
      subst h
      simp [lookupB_cons_self]
  · intro s b c hx hne
    unfold Store.addBackup
    rw [hx]
    simp [hne]
  · intro s s' b r h
    unfold Store.addOrphan at h ⊢
    split at h
    · rename_i ex hex
      split at h
      · rename_i hEq
        subst hEq
        injection h with h
        subst h
        simp [hex]
      · exact absurd h (by simp)
    · rename_i hex
      injection h with h
      subst h
      simp [lookupO_cons_self]
  · intro s b r o hx hne
    unfold Store.addOrphan
    rw [hx]
    simp [hne]
  · intro bs bs' id h
    unfold Backups.removeBackup at h ⊢
    split at h
    · exact absurd h (by simp)
    · injection h with h
      subst h
      simp [lookupB_filter_self]
  · intro s s' b h
    unfold Store.removeOrphan at h ⊢
    split at h
    · exact absurd h (by simp)
    · injection h with h
      subst h
      simp [lookupO_filter_self]

/-- An empty store used by the C2 examples. -/
def exC2Empty : Store :=
  { version := 1, createdAt := 0, backups := [], orphans := [], encryption := "",
    managedDatasets := [], hash := none }

/-- Store holding one backup under its own id. -/
def exC2One : Store := { exC2Empty with backups := [(1, exC1Full)] }

/-- Store holding a backup under key 2, to collide with a different payload. -/
def exC2WrongKey : Store := { exC2Empty with backups := [(2, exC1Full)] }

/-- Store holding one orphan. -/
def exC2OrphanOne : Store :=
  { exC2Empty with orphans := [(1, { backup := exC1Full, reason := .uncommitted })] }

/-- C2 counterexample: `remove_backup` is not idempotent in the claimed sense:
after a successful removal, removing the same id again returns a not-found
error instead of succeeding as a no-op. -/
theorem C2_counterexample :
    Backups.removeBackup [(1, exC1Full)] 1 = .ok [] ∧
    Backups.removeBackup ([] : Backups) 1 = .error ("backup not found: " ++ toString (1 : Nat)) := by
  constructor
  · rfl
  · rfl

/-- Witness for the amended C2 theorem: each conjunct instantiated at a
concrete store. -/
theorem C2_store_op_idempotency_witness :
    Store.addBackup exC2One exC1Full = .ok exC2One ∧
    Store.addBackup exC2WrongKey exC1Diff =
      .error ("backup " ++ toString exC1Diff.id ++ " already exists") ∧
    Store.addOrphan exC2OrphanOne exC1Full .uncommitted = .ok exC2OrphanOne ∧
    Store.addOrphan exC2OrphanOne exC1Full .startedDeletion =
      .error ("backup " ++ toString exC1Full.id ++ " is already an orphan") ∧
    Backups.removeBackup ([] : Backups) 1 = .error ("backup not found: " ++ toString (1 : Nat)) ∧
    Store.removeOrphan exC2Empty exC1Full = .error "orphan not found" := by
  refine ⟨?_, ?_, ?_, ?_, ?_, ?_⟩
  · exact C2_store_op_idempotency.1 exC2Empty exC2One exC1Full (by rfl)
  · exact C2_store_op_idempotency.2.1 exC2WrongKey exC1Diff exC1Full (by rfl)
      (by simp [exC1Full, exC1Diff])
  · exact C2_store_op_idempotency.2.2.1 exC2Empty exC2OrphanOne exC1Full .uncommitted (by rfl)
  · exact C2_store_op_idempotency.2.2.2.1 exC2OrphanOne exC1Full .startedDeletion
      { backup := exC1Full, reason := .uncommitted } (by rfl) (by simp)
  · exact C2_store_op_idempotency.2.2.2.2.1 [(1, exC1Full)] [] 1 (by rfl)
  · exact C2_store_op_idempotency.2.2.2.2.2 exC2OrphanOne exC2Empty exC1Full (by rfl)

/-- The payload of a Go `error` as seen by the retry machinery: whether
`errors.Is(err, UnrecoverableError)` holds (i.e. the error was wrapped by
`NewUnrecoverableError`), plus an inert description. -/
inductive ErrKind where
  | vErr (e : VErr)
  | msg (s : String)
deriving DecidableEq, Repr

/-- A Go error flowing through the FSM/retry runtime. -/
structure GoError where
  unrecoverable : Bool
  kind : ErrKind
deriving DecidableEq, Repr

deriving instance DecidableEq for Except

/-- `fsm.NewUnrecoverableError`: wraps an error so that
`IsUnrecoverableError` reports true. -/
def newUnrecoverableError (k : ErrKind) : GoError :=
  { unrecoverable := true, kind := k }

/-- `fsm.RetryExponentialBackoffConfig` (`fsm/retry.go`, the version whose
config implements `RetryStrategy.New`). -/
structure RetryExponentialBackoffConfig where
  maxRetries : Int
  waitIncrements : Int
  maxWait : Int
deriving DecidableEq, Repr

/-- `fsm.RetryExponentialBackoff`: the per-run retry state. -/
structure RetryExponentialBackoff where
  config : RetryExponentialBackoffConfig
  currentRetry : Int
deriving DecidableEq, Repr

/-- `fsm.NewRetryExponentialBackoff`: `currentRetry` starts at 0. -/
def newRetryExponentialBackoff (config : RetryExponentialBackoffConfig) :
    RetryExponentialBackoff :=
  { config := config, currentRetry := 0 }

/-- Errors returned by `RetryAfter` instead of a wait: the original
unrecoverable error passed through, or `RetryAttemptsExhausted`. -/
inductive RetryErr where
  | passthrough (e : GoError)
  | retryAttemptsExhausted
deriving DecidableEq, Repr

/-- Signed 64-bit wraparound, as Go `int64` arithmetic. -/
def wrap64 (x : Int) : Int := (x + 2 ^ 63) % 2 ^ 64 - 2 ^ 63

/-- Go `1 << n` at type `time.Duration` (`int64`): the shifted-out bits are
discarded, so the result is the wrapped power of two. -/
def shiftOne64 (n : Nat) : Int := wrap64 (2 ^ n)

/-- `RetryExponentialBackoff.RetryAfter` (`fsm/retry.go`): pass unrecoverable
errors through untouched, exhaust after `maxRetries`, otherwise wait
`min(waitIncrements * 2^currentRetry, maxWait)` (with `int64` wraparound on
the shift and multiply) and increment the attempt counter.  Returns the Go
`(time.Duration, error)` pair as `(result, new state)`. -/
def retryAfter (r : RetryExponentialBackoff) (e : GoError) :
    Except RetryErr Int × RetryExponentialBackoff :=
  if e.unrecoverable then (.error (.passthrough e), r)
  else if r.config.maxRetries ≤ r.currentRetry then (.error .retryAttemptsExhausted, r)
  else
    (.ok (min (wrap64 (r.config.waitIncrements * shiftOne64 r.currentRetry.toNat)) r.config.maxWait),
      { r with currentRetry := r.currentRetry + 1 })

/-- Iterated `RetryAfter` state after `n` calls with the same error. -/
def retryIter (e : GoError) (r : RetryExponentialBackoff) : Nat → RetryExponentialBackoff
  | 0 => r
  | n + 1 => (retryAfter (retryIter e r n) e).2

/-- Feeding `k ≤ maxRetries` recoverable errors advances the counter to `k`. -/
theorem retryIter_state (cfg : RetryExponentialBackoffConfig) (e : GoError)
    (he : e.unrecoverable = false) (k : Nat) (hk : (k : Int) ≤ cfg.maxRetries) :
    retryIter e (newRetryExponentialBackoff cfg) k = { config := cfg, currentRetry := (k : Int) } := by
  induction k with
  | zero => simp [retryIter, newRetryExponentialBackoff]
  | succ n ih =>
    have hn : (n : Int) ≤ cfg.maxRetries := by
      push_cast at hk ⊢
      omega
    have hlt : ¬ cfg.maxRetries ≤ (n : Int) := by
      push_cast at hk
      omega
    rw [retryIter, ih hn]
    simp [retryAfter, he, hlt]

/-- `wrap64` is the identity on the `int64` range. -/
theorem wrap64_eq_self (x : Int) (h1 : -(2 ^ 63) ≤ x) (h2 : x < 2 ^ 63) : wrap64 x = x := by
  unfold wrap64
  have e63 : (2 : Int) ^ 63 = 9223372036854775808 := by norm_num
  have e64 : (2 : Int) ^ 64 = 18446744073709551616 := by norm_num
  rw [e63, e64] at *
  omega

/-- C3 (amended): for every retry policy and every run of recoverable
errors, the wait returned before the N-th retry (1 ≤ N ≤ max_retries) equals
`min(wait_increment · 2^(N-1), max_wait)` whenever that product stays inside
the `int64` range, and once `max_retries` attempts have been consumed the
next call returns `RetryAttemptsExhausted`.  (The claim's additional clause
that the wait before the first retry is 0 is dropped: the first wait is
`min(wait_increment, max_wait)`.) -/
theorem C3_backoff_schedule (cfg : RetryExponentialBackoffConfig) (e : GoError) (N : Nat)
    (he : e.unrecoverable = false)
    (h1 : 1 ≤ N) (hN : (N : Int) ≤ cfg.maxRetries)
    (hwi : 0 ≤ cfg.waitIncrements)
    (hof : cfg.waitIncrements * 2 ^ (N - 1) < 2 ^ 63) :
    ((retryAfter (retryIter e (newRetryExponentialBackoff cfg) (N - 1)) e).1 =
      .ok (min (cfg.waitIncrements * 2 ^ (N - 1)) cfg.maxWait)) ∧
    ∀ M : Nat, (M : Int) = cfg.maxRetries →
      (retryAfter (retryIter e (newRetryExponentialBackoff cfg) M) e).1 =
        .error .retryAttemptsExhausted := by
  constructor
  · have hstate := retryIter_state cfg e he (N - 1) (by omega)
    rw [hstate]
    have hlt : ¬ cfg.maxRetries ≤ ((N - 1 : Nat) : Int) := by omega
    rcases eq_or_lt_of_le hwi with h0 | hpos
    · have hz : cfg.waitIncrements = 0 := h0.symm
      have hw0 : wrap64 0 = 0 := by norm_num [wrap64]
      simp [retryAfter, he, hlt, hz, hw0]
    · have hA : (0 : Int) ≤ 2 ^ (N - 1) := by positivity
      have hpow_lt : (2 : Int) ^ (N - 1) < 2 ^ 63 := by
        have hle : (2 : Int) ^ (N - 1) ≤ cfg.waitIncrements * 2 ^ (N - 1) :=
          le_mul_of_one_le_left hA (by omega)
        linarith
      have hshift : shiftOne64 (N - 1) = 2 ^ (N - 1) := by
        unfold shiftOne64
        refine wrap64_eq_self _ ?_ hpow_lt
        linarith
      have hprod : wrap64 (cfg.waitIncrements * 2 ^ (N - 1)) =
          cfg.waitIncrements * 2 ^ (N - 1) := by
        refine wrap64_eq_self _ ?_ hof
        have hnn := mul_nonneg hwi hA
        linarith
      simp [retryAfter, he, hlt, hshift, hprod]
  · intro M hM
    have hstate := retryIter_state cfg e he M (le_of_eq hM)
    rw [hstate]
    simp [retryAfter, he, hM.ge]

/-- The concrete retry config of the C3 counterexample:
`{max_retries := 3, wait_increment := 1, max_wait := 10}`. -/
def exC3Config : RetryExponentialBackoffConfig :=
  { maxRetries := 3, waitIncrements := 1, maxWait := 10 }

/-- A concrete recoverable error. -/
def exC3Err : GoError := { unrecoverable := false, kind := .msg "transient" }

/-- C3 counterexample: with the policy `{max_retries 3, wait_increment 1,
max_wait 10}` and a recoverable error, the wait before the first retry is
`min(wait_increment · 2^0, max_wait) = 1`, not 0 as the claim states. -/
theorem C3_counterexample :
    (retryAfter (newRetryExponentialBackoff exC3Config) exC3Err).1 = .ok 1 ∧
    (retryAfter (newRetryExponentialBackoff exC3Config) exC3Err).1 ≠ .ok 0 := by
  constructor
  · decide
  · decide

/-- Witness for the amended C3 theorem: at the concrete policy the second
retry waits `min(1 · 2, 10) = 2`, and the fourth call (after 3 retries)
exhausts. -/
theorem C3_backoff_schedule_witness :
    ((retryAfter (retryIter exC3Err (newRetryExponentialBackoff exC3Config) 1) exC3Err).1 =
      .ok (min (exC3Config.waitIncrements * 2 ^ (2 - 1)) exC3Config.maxWait)) ∧
    (retryAfter (retryIter exC3Err (newRetryExponentialBackoff exC3Config) 3) exC3Err).1 =
      .error .retryAttemptsExhausted := by
  have h := C3_backoff_schedule exC3Config exC3Err 2 (by decide) (by norm_num)
    (by decide) (by decide) (by decide)
  exact ⟨h.1, h.2 3 (by decide)⟩

/-- `fsm.State` (`fsm/fsm.go`, the context-aware version): current state id,
the FSM data record (`*D`), and the terminal flag. -/
structure FSMState (St : Type u) (D : Type v) where
  id : St
  data : D
  terminal : Bool

/-- The `From`/`To` pair of an `fsm.Transition`; the `Run` function is passed
separately as the per-attempt results oracle. -/
structure FSMTransition (St : Type u) where
  src : St
  dst : St

/-- Outcome of the retry loop inside `FSM.Run`: success or failure with the
data, the number of attempts made, and the final retry-runner state;
`fuelOut` is the out-of-fuel marker of the embedding (the Go loop is bounded
by the retry policy, so enough fuel makes it unreachable). -/
inductive LoopOut (D : Type v) where
  | success (d : D) (attempts : Nat) (r : RetryExponentialBackoff)
  | failed (e : RetryErr) (attempts : Nat) (r : RetryExponentialBackoff)
  | fuelOut

/-- The `for { ... }` retry loop of `FSM.Run`: attempt the transition; on
success return, on failure consult `RetryAfter` — an error from it is
surfaced, a wait means try again. `attempts i` is the result of the i-th
call of `transition.Run`. -/
def fsmAttemptLoop (attempts : Nat → Except GoError D) (r : RetryExponentialBackoff)
    (i : Nat) : Nat → LoopOut D
  | 0 => .fuelOut
  | fuel + 1 =>
    match attempts i with
    | .ok d => .success d (i + 1) r
    | .error e =>
      match retryAfter r e with
      | (.error re, r') => .failed re (i + 1) r'
      | (.ok _, r') => fsmAttemptLoop attempts r' (i + 1) fuel

/-- Result of one `FSM.Run` call. -/
inductive FsmRunResult (St : Type u) (D : Type v) where
  | rejectedTerminal (cur : FSMState St D)
  | rejectedFrom (cur : FSMState St D)
  | completed (final : FSMState St D) (attempts : Nat) (r : RetryExponentialBackoff)
  | failed (e : RetryErr) (cur : FSMState St D) (attempts : Nat) (r : RetryExponentialBackoff)
  | fuelOut

/-- `FSM.Run` (`fsm/fsm.go`): reject in a terminal state, reject a transition
whose `From` is not the current state, otherwise run the retry loop with a
fresh retry runner; on success advance `current` to the transition's `To`
(keeping data and terminal flag), on failure keep `current` unchanged. -/
def fsmRun [DecidableEq St] (fuel : Nat) (cur : FSMState St D) (tr : FSMTransition St)
    (attempts : Nat → Except GoError D) (cfg : RetryExponentialBackoffConfig) :
    FsmRunResult St D :=
  if cur.terminal then .rejectedTerminal cur
  else if tr.src ≠ cur.id then .rejectedFrom cur
  else
    match fsmAttemptLoop attempts (newRetryExponentialBackoff cfg) 0 fuel with
    | .success d n r => .completed { id := tr.dst, data := d, terminal := cur.terminal } n r
    | .failed e n r => .failed e cur n r
    | .fuelOut => .fuelOut

/-- C7 (confirmed): when the first attempt of a transition returns an error
wrapped by `new_unrecoverable`, `FSM.Run` surfaces exactly that error at
once: the retry runner passes it through without incrementing its counter
(final counter is the fresh counter 0), only one attempt is made, and the
FSM's current state is unchanged. -/
theorem C7_unrecoverable_short_circuit {St : Type u} {D : Type v} [DecidableEq St]
    (tr : FSMTransition St) (d : D) (k : ErrKind) (rest : Nat → Except GoError D)
    (cfg : RetryExponentialBackoffConfig) (fuel : Nat) :
    fsmRun (fuel + 1) { id := tr.src, data := d, terminal := false } tr
      (fun i => if i = 0 then .error (newUnrecoverableError k) else rest i) cfg =
    .failed (.passthrough (newUnrecoverableError k))
      { id := tr.src, data := d, terminal := false } 1 (newRetryExponentialBackoff cfg) := by
  simp [fsmRun, fsmAttemptLoop, retryAfter, newUnrecoverableError]

/-- `DeleteState` (`storage/s3_strong.go`, the delete FSM states). -/
inductive DeleteState where
  | initial
  | prerequisitesVerified
  | orphaned
  | remoteRemoved
  | updatedStore
  | releasedSnapshot
  | localRemoved
  | completed
deriving DecidableEq, Repr

/-- `DeleteFSMData` (`storage/s3_strong.go`). -/
structure DeleteFSMData where
  dataset : String
  backup : Backup
  orphan : Bool
deriving DecidableEq, Repr

/-- The `release_snapshot` transition body of the delete FSM
(`storage/s3_strong.go`): on a release error, incremental backups short
circuit to success, and for every other kind the error is logged as
non-fatal and success is returned as well. `releaseResult` is the outcome of
`ZFS.ReleaseSnapshot`. -/
def releaseSnapshotRun (releaseResult : Except GoError Unit) (b : Backup) :
    Except GoError Unit :=
  match releaseResult with
  | .ok _ => .ok ()
  | .error _ =>
    if b.type = BackupType.incr then .ok ()
    else .ok ()

/-- C10 (confirmed): the `release_snapshot` transition never fails — for
every backup kind and every outcome of the provider's release call the
transition returns success, so `FSM.Run` advances the delete FSM from
`UpdatedStore` to `ReleasedSnapshot` on the first attempt. -/
theorem C10_release_snapshot_never_fails :
    (∀ (res : Except GoError Unit) (b : Backup), releaseSnapshotRun res b = .ok ()) ∧
    ∀ (rorc : Nat → Except GoError Unit) (d : DeleteFSMData)
      (cfg : RetryExponentialBackoffConfig) (fuel : Nat),
      fsmRun (fuel + 1) { id := DeleteState.updatedStore, data := d, terminal := false }
        { src := DeleteState.updatedStore, dst := DeleteState.releasedSnapshot }
        (fun i => (releaseSnapshotRun (rorc i) d.backup).map (fun _ => d)) cfg =
      .completed { id := DeleteState.releasedSnapshot, data := d, terminal := false } 1
        (newRetryExponentialBackoff cfg) := by
  have hrun : ∀ (res : Except GoError Unit) (b : Backup), releaseSnapshotRun res b = .ok () := by
    intro res b
    unfold releaseSnapshotRun
    split
    · rfl
    · split <;> rfl
  refine ⟨hrun, ?_⟩
  intro rorc d cfg fuel
  simp [fsmRun, fsmAttemptLoop, hrun, Except.map]

/-- `Backups.GetChildren` (`repository/backup.go`): nil when the backup is
absent or incremental, otherwise the direct children, keyed by their stored
id. -/
def getChildren (bs : Backups) (id : Nat) : Backups :=
  match lookupB bs id with
  | none => []
  | some b =>
    if b.type = BackupType.incr then []
    else (bs.filter (fun p => p.2.dependsOn == some id)).map (fun p => (p.2.id, p.2))

/-- The target-resolution part of `Runner.createDeleteFSM`
(`storage/s3_strong.go`): look the id up in `store.backups` first, fall back
to `store.orphans` (marking the data as orphan), then check the dataset. -/
def createDeleteFSMData (s : Store) (dataset : String) (id : Nat) :
    Except String DeleteFSMData :=
  match
    (match lookupB s.backups id with
     | some b => Except.ok (b, false)
     | none =>
       match lookupO s.orphans id with
       | some orphan => Except.ok (orphan.backup, true)
       | none => Except.error ("backup not found: " ++ toString id)) with
  | .error e => .error e
  | .ok (backup, isOrphan) =>
    if backup.dataset ≠ dataset then .error ("backup dataset mismatch: " ++ toString id)
    else .ok { dataset := dataset, backup := backup, orphan := isOrphan }

/-- The `verify_prerequisites` transition body of the delete FSM
(`storage/s3_strong.go`): orphan targets skip the children check entirely;
non-orphan targets fail with an unrecoverable error when the backup has
dependent children. -/
def verifyPrerequisitesRun (bs : Backups) (data : DeleteFSMData) : Except GoError Unit :=
  if data.orphan then .ok ()
  else if 0 < (getChildren bs data.backup.id).length then
    .error (newUnrecoverableError (.msg "backup has dependent backups"))
  else .ok ()

/-- C9 (confirmed): when the delete target is found in `store.orphans` rather
than `store.backups`, the FSM data is marked orphan and
`verify_prerequisites` succeeds unconditionally, without the children check;
the children-based refusal fires only for non-orphan targets. -/
theorem C9_orphan_skips_prerequisites :
    (∀ (bs : Backups) (d : DeleteFSMData), d.orphan = true →
      verifyPrerequisitesRun bs d = .ok ()) ∧
    (∀ (s : Store) (dataset : String) (id : Nat) (o : Orphan),
      lookupB s.backups id = none → lookupO s.orphans id = some o →
      o.backup.dataset = dataset →
      createDeleteFSMData s dataset id =
        .ok { dataset := dataset, backup := o.backup, orphan := true }) ∧
    (∀ (bs : Backups) (d : DeleteFSMData), d.orphan = false →
      0 < (getChildren bs d.backup.id).length →
      verifyPrerequisitesRun bs d =
        .error (newUnrecoverableError (.msg "backup has dependent backups"))) := by
  refine ⟨?_, ?_, ?_⟩
  · intro bs d h
    simp [verifyPrerequisitesRun, h]
  · intro s dataset id o hb ho hds
    simp [createDeleteFSMData, hb, ho, hds]
  · intro bs d h hc
    simp [verifyPrerequisitesRun, h, hc]

/-- The orphaned backup (id 7) used by the C9 witness. -/
def exC9OrphanBackup : Backup :=
  { id := 7, type := .full, createdAt := 0, dependsOn := none, dataset := "tank", size := 0 }

/-- A store whose only backup entries are the full id 1 with a dependent
child (the diff id 2), and which also carries an unrelated orphan id 7. -/
def exC9Store : Store :=
  { version := 1, createdAt := 0, backups := exC1Backups,
    orphans := [(7, { backup := exC9OrphanBackup, reason := .startedDeletion })],
    encryption := "", managedDatasets := ["tank"], hash := none }

/-- Witness for C9: deleting the orphan id 7 resolves to orphan data and
passes `verify_prerequisites`, while deleting the non-orphan full id 1
(which has the diff child id 2) is refused with the unrecoverable
dependent-backups error. -/
theorem C9_orphan_skips_prerequisites_witness :
    verifyPrerequisitesRun exC9Store.backups
      { dataset := "tank", backup := exC9OrphanBackup, orphan := true } = .ok () ∧
    createDeleteFSMData exC9Store "tank" 7 =
      .ok { dataset := "tank", backup := exC9OrphanBackup, orphan := true } ∧
    verifyPrerequisitesRun exC9Store.backups
      { dataset := "tank", backup := exC1Full, orphan := false } =
      .error (newUnrecoverableError (.msg "backup has dependent backups")) := by
  refine ⟨?_, ?_, ?_⟩
  · exact C9_orphan_skips_prerequisites.1 exC9Store.backups _ rfl
  · exact C9_orphan_skips_prerequisites.2.1 exC9Store "tank" 7
      { backup := exC9OrphanBackup, reason := .startedDeletion } (by rfl) (by rfl) rfl
  · refine C9_orphan_skips_prerequisites.2.2 exC9Store.backups _ rfl ?_
    show 0 < (getChildren exC1Backups exC1Full.id).length
    simp [getChildren, lookupB, List.find?, exC1Backups, exC1Full, exC1Diff]

/-- The iteration loop of `Backups.ExpiredBackupsForDataset`
(`repository/backup.go`): keep the entries of the dataset whose `Expired`
check returns true (keyed by their stored id), abort on the first error. -/
def expiredForDataset (now : Int) (exp : Expiry) (bs : Backups) (dataset : String) :
    List (Nat × Backup) → Except VErr Backups
  | [] => .ok []
  | p :: rest =>
    if p.2.dataset = dataset then
      match expired now exp bs p.2.id with
      | .error e => .error e
      | .ok true =>
        match expiredForDataset now exp bs dataset rest with
        | .error e => .error e
        | .ok acc => .ok ((p.2.id, p.2) :: acc)
      | .ok false => expiredForDataset now exp bs dataset rest
    else expiredForDataset now exp bs dataset rest

/-- `Backups.ExpiredBackupsForDataset`. -/
def expiredBackupsForDataset (now : Int) (exp : Expiry) (bs : Backups) (dataset : String) :
    Except VErr Backups :=
  expiredForDataset now exp bs dataset bs

/-- The comparator of `Runner.DeleteExpired`'s `sort.Slice`: `a` is placed
before `b` when `a.ID.Compare(b.ID) > 0`; as a total preorder (for distinct
ids the two agree): `b.id ≤ a.id`. -/
def idDescBefore (a b : Backup) : Prop := b.id ≤ a.id

instance : DecidableRel idDescBefore := fun a b => Nat.decLe b.id a.id

instance : IsTotal Backup idDescBefore := ⟨fun a b => le_total b.id a.id⟩

instance : IsTrans Backup idDescBefore := ⟨fun _ _ _ h1 h2 => le_trans h2 h1⟩

/-- `Runner.DeleteExpired` (`storage/s3_strong.go`): gather the expired
backups of the dataset, sort them descending by backup id, and return the
sequence of per-backup `Delete` calls in the order they are issued (an empty
list when nothing is expired, matching the early return). -/
def deleteExpiredOrder (now : Int) (exp : Expiry) (bs : Backups) (dataset : String) :
    Except VErr (List Backup) :=
  match expiredBackupsForDataset now exp bs dataset with
  | .error e => .error e
  | .ok ex => .ok (List.insertionSort idDescBefore (ex.map (fun p => p.2)))

/-- Specification of the expired-collection loop: on success the collected
entries form a sublist of the scanned list, and an entry is collected exactly
when it belongs to the dataset and is expired. -/
theorem expiredForDataset_spec (now : Int) (exp : Expiry) (bs : Backups) (ds : String) :
    ∀ (l : List (Nat × Backup)) (ex : Backups),
      (∀ p ∈ l, (p : Nat × Backup).2.id = p.1) →
      expiredForDataset now exp bs ds l = .ok ex →
      ex.Sublist l ∧
      ∀ q : Nat × Backup, q ∈ ex ↔
        (q ∈ l ∧ q.2.dataset = ds ∧ expired now exp bs q.2.id = .ok true) := by
  intro l
  induction l with
  | nil =>
    intro ex _ h
    rw [expiredForDataset] at h
    injection h with h
    subst h
    simp
  | cons p rest ih =>
    intro ex hid h
    have hpid : p.2.id = p.1 := hid p (by simp)
    have hpeq : (p.2.id, p.2) = p := by
      cases p with
      | mk k v =>
        simp only at hpid
        simp [hpid]
    have hidrest : ∀ q ∈ rest, (q : Nat × Backup).2.id = q.1 := fun q hq => hid q (by simp [hq])
    rw [expiredForDataset] at h
    split at h
    · rename_i hds
      split at h
      · exact absurd h (by simp)
      · rename_i hexp
        split at h
        · exact absurd h (by simp)
        · rename_i acc hacc
          injection h with h
          subst h
          obtain ⟨ihsub, ihmem⟩ := ih acc hidrest hacc
          constructor
          · rw [hpeq]
            exact ihsub.cons₂ p
          · intro q
            constructor
            · intro hq
              rcases List.mem_cons.mp hq with hq | hq
              · subst hq
                exact ⟨by rw [hpeq]; exact List.mem_cons_self p rest, hds, hexp⟩
              · have h3 := (ihmem q).mp hq
                exact ⟨List.mem_cons_of_mem p h3.1, h3.2⟩
            · rintro ⟨hqmem, hqds, hqexp⟩
              rcases List.mem_cons.mp hqmem with hq | hq
              · subst hq
                rw [hpeq]
                exact List.mem_cons_self q acc
              · exact List.mem_cons_of_mem _ ((ihmem q).mpr ⟨hq, hqds, hqexp⟩)
      · rename_i hexp
        obtain ⟨ihsub, ihmem⟩ := ih ex hidrest h
        refine ⟨ihsub.cons p, ?_⟩
        intro q
        rw [ihmem q]
        constructor
        · rintro ⟨hq, hqds, hqexp⟩
          exact ⟨List.mem_cons_of_mem p hq, hqds, hqexp⟩
        · rintro ⟨hqmem, hqds, hqexp⟩
          rcases List.mem_cons.mp hqmem with hq | hq
          · subst hq
            rw [hqexp] at hexp
            exact absurd hexp (by simp)
          · exact ⟨hq, hqds, hqexp⟩
    · rename_i hds
      obtain ⟨ihsub, ihmem⟩ := ih ex hidrest h
      refine ⟨ihsub.cons p, ?_⟩
      intro q
      rw [ihmem q]
      constructor
      · rintro ⟨hq, hqds, hqexp⟩
        exact ⟨List.mem_cons_of_mem p hq, hqds, hqexp⟩
      · rintro ⟨hqmem, hqds, hqexp⟩
        rcases List.mem_cons.mp hqmem with hq | hq
        · subst hq
          exact absurd hqds hds
        · exact ⟨hq, hqds, hqexp⟩

/-- C4 (confirmed): for every dataset and every expiry configuration, on a
well-formed backups map (unique keys, stored id equal to key, as Go maps and
a validated store guarantee) a successful `DeleteExpired` issues the
per-backup `Delete` calls in strictly descending backup-id order, and the
deleted set is exactly the expired backups of that dataset. -/
theorem C4_delete_expired_descending (now : Int) (exp : Expiry) (bs : Backups)
    (ds : String) (l : List Backup)
    (hnd : (bs.map Prod.fst).Nodup)
    (hid : ∀ p ∈ bs, (p : Nat × Backup).2.id = p.1)
    (h : deleteExpiredOrder now exp bs ds = .ok l) :
    List.Pairwise (fun a b => b.id < a.id) l ∧
    ∀ b : Backup, b ∈ l ↔
      ((b.id, b) ∈ bs ∧ b.dataset = ds ∧ expired now exp bs b.id = .ok true) := by
  unfold deleteExpiredOrder expiredBackupsForDataset at h
  split at h
  · exact absurd h (by simp)
  · rename_i ex hex
    injection h with h
    subst h
    obtain ⟨hsub, hmem⟩ := expiredForDataset_spec now exp bs ds bs ex hid hex
    have hperm : (List.insertionSort idDescBefore (ex.map (fun p => p.2))).Perm
        (ex.map (fun p => p.2)) := List.perm_insertionSort _ _
    have hsorted : List.Sorted idDescBefore
        (List.insertionSort idDescBefore (ex.map (fun p => p.2))) :=
      List.sorted_insertionSort _ _
    have hmapid : (ex.map (fun p => p.2)).map (fun b => b.id) = ex.map Prod.fst := by
      rw [List.map_map]
      refine List.map_congr_left ?_
      intro q hq
      exact hid q (hsub.subset hq)
    have hexnd : (ex.map Prod.fst).Nodup := hnd.sublist (hsub.map Prod.fst)
    have hlnd : ((List.insertionSort idDescBefore (ex.map (fun p => p.2))).map
        (fun b => b.id)).Nodup := by
      have hp2 := hperm.map (fun b : Backup => b.id)
      rw [hmapid] at hp2
      exact hp2.nodup_iff.mpr hexnd
    have hne : (List.insertionSort idDescBefore (ex.map (fun p => p.2))).Pairwise
        (fun a b => a.id ≠ b.id) := by
      rw [List.Nodup, List.pairwise_map] at hlnd
      exact hlnd
    constructor
    · exact (hsorted.and hne).imp
        (fun hab => lt_of_le_of_ne hab.1 (Ne.symm hab.2))
    · intro b
      rw [hperm.mem_iff]
      simp only [List.mem_map]
      constructor
      · rintro ⟨q, hq, rfl⟩
        have h3 := (hmem q).mp hq
        have hqid : (q.2.id, q.2) = q := by
          have := hid q (hsub.subset hq)
          cases q with
          | mk k v =>
            simp only at this
            simp [this]
        refine ⟨?_, h3.2.1, h3.2.2⟩
        rw [hqid]
        exact h3.1
      · rintro ⟨hmem2, hds2, hexp2⟩
        exact ⟨(b.id, b), (hmem (b.id, b)).mpr ⟨hmem2, hds2, hexp2⟩, rfl⟩

/-- At time 2000 the diff child is expired as well (its own TTL lapsed). -/
theorem exC1_diff_expired_at_2000 :
    expired 2000 exC1Expiry exC1Backups 2 = .ok true := by
  have hl2 : lookupB exC1Backups 2 = some exC1Diff := by
    simp [lookupB, List.find?, exC1Backups]
  rw [expired.eq_def]
  split
  · rename_i e heq
    rw [exC1_validate_diff 2000 (by norm_num)] at heq
    cases heq
  · split
    · rename_i heq2
      rw [hl2] at heq2
      cases heq2
    · rename_i b heq2
      rw [hl2] at heq2
      injection heq2 with heq2
      subst heq2
      simp only [exC1Diff]
      rw [exC1_full_expired_at_2000]
      simp [exC1Expiry]

/-- At time 2000 both example backups are expired and collected in map
order. -/
theorem exC4_expired_collection :
    expiredForDataset 2000 exC1Expiry exC1Backups "tank"
      ((1, exC1Full) :: (2, exC1Diff) :: []) = .ok [(1, exC1Full), (2, exC1Diff)] := by
  have h1 : expired 2000 exC1Expiry exC1Backups exC1Full.id = .ok true := by
    show expired 2000 exC1Expiry exC1Backups 1 = .ok true
    exact exC1_full_expired_at_2000
  have h2 : expired 2000 exC1Expiry exC1Backups exC1Diff.id = .ok true := by
    show expired 2000 exC1Expiry exC1Backups 2 = .ok true
    exact exC1_diff_expired_at_2000
  rw [expiredForDataset, if_pos (show exC1Full.dataset = "tank" from rfl), h1]
  rw [expiredForDataset, if_pos (show exC1Diff.dataset = "tank" from rfl), h2]
  rw [expiredForDataset]
  rfl

/-- `DeleteExpired` on the example store at time 2000 deletes the diff (id 2)
before the full (id 1). -/
theorem exC4_delete_order :
    deleteExpiredOrder 2000 exC1Expiry exC1Backups "tank" = .ok [exC1Diff, exC1Full] := by
  unfold deleteExpiredOrder expiredBackupsForDataset
  rw [show expiredForDataset 2000 exC1Expiry exC1Backups "tank" exC1Backups =
    .ok [(1, exC1Full), (2, exC1Diff)] from exC4_expired_collection]
  rfl

/-- Witness for C4 at the concrete example: the issued delete order
`[diff (id 2), full (id 1)]` is strictly descending in backup id and is
exactly the set of expired "tank" backups at time 2000. -/
theorem C4_delete_expired_descending_witness :
    List.Pairwise (fun a b : Backup => b.id < a.id) [exC1Diff, exC1Full] ∧
    ∀ b : Backup, b ∈ [exC1Diff, exC1Full] ↔
      ((b.id, b) ∈ exC1Backups ∧ b.dataset = "tank" ∧
        expired 2000 exC1Expiry exC1Backups b.id = .ok true) := by
  refine C4_delete_expired_descending 2000 exC1Expiry exC1Backups "tank" [exC1Diff, exC1Full]
    ?_ ?_ exC4_delete_order
  · simp [exC1Backups]
  · intro p hp
    simp only [exC1Backups, List.mem_cons] at hp
    rcases hp with hp | hp | hp
    · subst hp
      rfl
    · subst hp
      rfl
    · cases hp

/-- `Runner.RestoreRecursive` (`zfsbackrest/restore.go`), abstracted over the
effect of the underlying `Restore` call: returns the sequence of backup ids
passed to `Restore`, in call order (parent chain first, then the backup
itself).  The Go recursion is unbounded, so the embedding takes a fuel
parameter; any fuel at least the `depends_on` chain length reproduces the Go
behaviour, and the out-of-fuel marker is unreachable for chains that resolve
(a validated chain has length at most 3). -/
def restoreRecursive (bs : Backups) : Nat → Nat → Except String (List Nat)
  | 0, _ => .error "recursion limit"
  | fuel + 1, id =>
    match lookupB bs id with
    | none => .error ("backup not found: " ++ toString id)
    | some b =>
      match b.dependsOn with
      | none => .ok [id]
      | some pid =>
        match restoreRecursive bs fuel pid with
        | .error e => .error e
        | .ok l => .ok (l ++ [id])

/-- C6 (confirmed): whenever `RestoreRecursive` succeeds, the sequence of
`Restore` calls it issued ends with the requested backup and is parent-first:
every restored backup whose manifest has a parent restores that parent at an
earlier position. -/
theorem C6_restore_recursive_parent_first (bs : Backups) (fuel id : Nat) (l : List Nat)
    (h : restoreRecursive bs fuel id = .ok l) :
    l.getLast? = some id ∧
    ∀ (i : Nat) (hi : i < l.length) (b : Backup) (pid : Nat),
      lookupB bs (l.get ⟨i, hi⟩) = some b → b.dependsOn = some pid →
      pid ∈ l.take i := by
  induction fuel generalizing id l with
  | zero =>
    rw [restoreRecursive] at h
    exact absurd h (by simp)
  | succ fuel ih =>
    rw [restoreRecursive] at h
    split at h
    · exact absurd h (by simp)
    · rename_i b hb
      split at h
      · rename_i hdep
        injection h with h
        subst h
        refine ⟨rfl, ?_⟩
        intro i hi b' pid hlook hdep'
        simp only [List.length_singleton] at hi
        interval_cases i
        simp only [List.get] at hlook
        rw [hb] at hlook
        injection hlook with hlook
        subst hlook
        rw [hdep] at hdep'
        cases hdep'
      · rename_i pid hdep
        split at h
        · exact absurd h (by simp)
        · rename_i lp hlp
          injection h with h
          subst h
          obtain ⟨ihlast, ihprop⟩ := ih pid lp hlp
          have hplen : 0 < lp.length := by
            cases lp with
            | nil => simp at ihlast
            | cons a t => simp
          refine ⟨by rw [List.getLast?_concat], ?_⟩
          intro i hi b' pid' hlook hdep'
          rcases lt_or_ge i lp.length with hlt | hge
          · have hget : (lp ++ [id]).get ⟨i, hi⟩ = lp.get ⟨i, hlt⟩ :=
              List.get_append i hlt
            rw [hget] at hlook
            have htake : (lp ++ [id]).take i = lp.take i := by
              rw [List.take_append_eq_append_take]
              have : i - lp.length = 0 := by omega
              simp [this]
            rw [htake]
            exact ihprop i hlt b' pid' hlook hdep'
          · have hieq : i = lp.length := by
              have := hi
              simp only [List.length_append, List.length_singleton] at this
              omega
            subst hieq
            have hget : (lp ++ [id]).get ⟨lp.length, hi⟩ = id := by
              rw [List.get_append_right] <;> simp
            rw [hget, hb] at hlook
            injection hlook with hlook
            subst hlook
            rw [hdep] at hdep'
            injection hdep' with hdep'
            subst hdep'
            have htake : (lp ++ [id]).take lp.length = lp := by
              rw [List.take_append_eq_append_take]
              simp
            rw [htake]
            have : pid ∈ lp := by
              have hne : lp ≠ [] := by
                intro hcon
                rw [hcon] at hplen
                simp at hplen
              have := List.getLast?_eq_getLast lp hne
              rw [this] at ihlast
              injection ihlast with ihlast
              rw [← ihlast]
              exact List.getLast_mem hne
            exact this

/-- The incremental backup completing the C6 example chain. -/
def exC6Incr : Backup :=
  { id := 3, type := .incr, createdAt := 800, dependsOn := some 2, dataset := "tank", size := 0 }

/-- A full ← diff ← incr chain for the C6 witness. -/
def exC6Backups : Backups := [(1, exC1Full), (2, exC1Diff), (3, exC6Incr)]

/-- Witness for C6: restoring the incr (id 3) issues the restore calls
`[1, 2, 3]` — root full, then diff, then incr — and that sequence is
parent-first. -/
theorem C6_restore_recursive_parent_first_witness :
    ([1, 2, 3] : List Nat).getLast? = some 3 ∧
    ∀ (i : Nat) (hi : i < ([1, 2, 3] : List Nat).length) (b : Backup) (pid : Nat),
      lookupB exC6Backups (([1, 2, 3] : List Nat).get ⟨i, hi⟩) = some b →
      b.dependsOn = some pid →
      pid ∈ ([1, 2, 3] : List Nat).take i := by
  refine C6_restore_recursive_parent_first exC6Backups 3 3 [1, 2, 3] ?_
  rfl

/-- `Backups.LatestFull` (`repository/backup.go`): the full backup of the
dataset with the maximal `created_at`, scanning the map. -/
def latestFull (bs : Backups) (dataset : String) : Option Backup :=
  bs.foldl
    (fun acc p =>
      if p.2.type = BackupType.full ∧ p.2.dataset = dataset then
        match acc with
        | none => some p.2
        | some cur => if cur.createdAt < p.2.createdAt then some p.2 else some cur
      else acc)
    none

/-- `Backups.LatestDiff`. -/
def latestDiff (bs : Backups) (dataset : String) : Option Backup :=
  bs.foldl
    (fun acc p =>
      if p.2.type = BackupType.diff ∧ p.2.dataset = dataset then
        match acc with
        | none => some p.2
        | some cur => if cur.createdAt < p.2.createdAt then some p.2 else some cur
      else acc)
    none

/-- `Backups.GetParent` (`repository/backup.go`): no parent for full, the
latest full for diff, the latest diff for incr; `ParentNotFound` when the
needed parent is missing. -/
def getParent (bs : Backups) (dataset : String) (typ : BackupType) :
    Except VErr (Option Backup) :=
  match typ with
  | .full => .ok none
  | .diff =>
    match latestFull bs dataset with
    | none => .error .parentNotFound
    | some latest => .ok (some latest)
  | .incr =>
    match latestDiff bs dataset with
    | none => .error .parentNotFound
    | some latest => .ok (some latest)
  | .unknown _ => .error .unknownType

/-- When no full backup of the dataset exists, `LatestFull` returns none. -/
theorem latestFull_eq_none (bs : Backups) (dataset : String)
    (h : ∀ p ∈ bs, ¬((p : Nat × Backup).2.type = BackupType.full ∧ p.2.dataset = dataset)) :
    latestFull bs dataset = none := by
  unfold latestFull
  induction bs with
  | nil => rfl
  | cons p rest ih =>
    rw [List.foldl_cons]
    rw [if_neg (h p (by simp))]
    exact ih (fun q hq => h q (by simp [hq]))

/-- `BackupFSMData` (the backup FSM of the orchestrator). -/
structure BackupFSMData where
  dataset : String
  backupID : Nat
  backupType : BackupType
  parentBackup : Option Backup
  manifest : Option Backup
  snapshotSize : Int

/-- The snapshot-provider calls the backup FSM makes, abstracted as oracles
(`ZFS.SnapshotExists`, `ZFS.CreateSnapshot`, `ZFS.SendSnapshot`). -/
structure ZFSOracle where
  snapshotExists : String → Nat → Except GoError Bool
  createSnapshot : String → Nat → Except GoError Unit
  sendSnapshot : String → Nat → Option Nat → Except GoError Int

/-- The object-store calls the backup FSM makes, abstracted as oracles
(`OpenSnapshotWriteStream` and `SaveStoreContent`, the latter indexed by how
many saves happened before). -/
structure StorageOracle where
  openSnapshotWriteStream : String → Nat → Except GoError Unit
  saveStoreContent : Nat → Except GoError Unit

/-- The evolving state of one backup FSM run: the in-memory store, the list
of store snapshots successfully saved to the object store, and the FSM data
record. -/
structure BStep where
  store : Store
  saves : List Store
  data : BackupFSMData

/-- `Store.Save` (`repository/store.go`): validate, then write through the
object store. -/
def storeSave (now : Int) (so : StorageOracle) (s : Store) (saveIdx : Nat) :
    Except GoError Unit :=
  match Store.validate now s with
  | .error _ => .error { unrecoverable := false, kind := .msg "invalid store" }
  | .ok _ => so.saveStoreContent saveIdx

/-- The `get_parent` transition of the backup FSM: compute the parent via
`GetParent` (failure is wrapped unrecoverable), and for a non-nil parent also
require its snapshot to still exist on the provider (absence is
unrecoverable, a provider error is retried). -/
def getParentRun (z : ZFSOracle) (st : BStep) : Except GoError BStep :=
  match getParent st.store.backups st.data.dataset st.data.backupType with
  | .error e => .error (newUnrecoverableError (.vErr e))
  | .ok parent =>
    let st' : BStep := { st with data := { st.data with parentBackup := parent } }
    match parent with
    | none => .ok st'
    | some p =>
      match z.snapshotExists st'.data.dataset p.id with
      | .error e => .error e
      | .ok true => .ok st'
      | .ok false => .error (newUnrecoverableError (.msg "snapshot for parent does not exist"))

/-- The `create_snapshot` transition: skip when the snapshot already exists,
else create it. -/
def createSnapshotRun (z : ZFSOracle) (st : BStep) : Except GoError BStep :=
  match z.snapshotExists st.data.dataset st.data.backupID with
  | .error e => .error e
  | .ok true => .ok st
  | .ok false =>
    match z.createSnapshot st.data.dataset st.data.backupID with
    | .error e => .error e
    | .ok _ => .ok st

/-- The `create_backup_manifest` transition: materialise the manifest, check
kind-vs-parent sanity (unrecoverable on violation), set `depends_on` from
the parent. -/
def createBackupManifestRun (now : Int) (st : BStep) : Except GoError BStep :=
  let manifest : Backup :=
    { id := st.data.backupID, type := st.data.backupType, createdAt := now,
      dependsOn := none, dataset := st.data.dataset, size := 0 }
  if st.data.backupType = BackupType.full ∧ st.data.parentBackup.isSome then
    .error (newUnrecoverableError (.msg "sanity check failed: full backup cannot have a parent backup"))
  else if st.data.backupType = BackupType.diff ∧ st.data.parentBackup.isNone then
    .error (newUnrecoverableError (.msg "sanity check failed: diff backup must have a parent backup"))
  else if st.data.backupType = BackupType.incr ∧ st.data.parentBackup.isNone then
    .error (newUnrecoverableError (.msg "sanity check failed: incremental backup must have a parent backup"))
  else
    let manifest :=
      match st.data.parentBackup with
      | some p => { manifest with dependsOn := some p.id }
      | none => manifest
    .ok { st with data := { st.data with manifest := some manifest } }

/-- The `add_orphan` transition: `AddOrphan(manifest, Uncommitted)` (failure
unrecoverable), then `Store.Save` (failure retried).  A missing manifest
would be a nil dereference in Go; modelled as an unrecoverable error, and
unreachable in the sequenced FSM. -/
def addOrphanRun (now : Int) (so : StorageOracle) (st : BStep) : Except GoError BStep :=
  match st.data.manifest with
  | none => .error (newUnrecoverableError (.msg "nil manifest"))
  | some m =>
    match Store.addOrphan st.store m OrphanReason.uncommitted with
    | .error _ => .error (newUnrecoverableError (.msg "failed to add orphan"))
    | .ok s' =>
      match storeSave now so s' st.saves.length with
      | .error e => .error e
      | .ok _ => .ok { store := s', saves := st.saves ++ [s'], data := st.data }

/-- The `upload_snapshot` transition: open the write stream, send the
snapshot (incremental against the parent id when present), record the size. -/
def uploadSnapshotRun (z : ZFSOracle) (so : StorageOracle) (st : BStep) :
    Except GoError BStep :=
  match st.data.manifest with
  | none => .error (newUnrecoverableError (.msg "nil manifest"))
  | some m =>
    match so.openSnapshotWriteStream st.data.dataset m.id with
    | .error e => .error e
    | .ok _ =>
      match z.sendSnapshot st.data.dataset m.id (st.data.parentBackup.map (fun p => p.id)) with
      | .error e => .error e
      | .ok size => .ok { st with data := { st.data with snapshotSize := size } }

/-- The `update_store` transition: `RemoveOrphan`, set the manifest size,
`AddBackup`, `Store.Save`. -/
def updateStoreRun (now : Int) (so : StorageOracle) (st : BStep) : Except GoError BStep :=
  match st.data.manifest with
  | none => .error (newUnrecoverableError (.msg "nil manifest"))
  | some m =>
    match Store.removeOrphan st.store m with
    | .error _ => .error (newUnrecoverableError (.msg "failed to remove orphan"))
    | .ok s1 =>
      match Store.addBackup s1 { m with size := st.data.snapshotSize } with
      | .error _ => .error (newUnrecoverableError (.msg "failed to add backup"))
      | .ok s2 =>
        match storeSave now so s2 st.saves.length with
        | .error e => .error e
        | .ok _ =>
          .ok { store := s2, saves := st.saves ++ [s2],
                data := { st.data with manifest := some { m with size := st.data.snapshotSize } } }

/-- The `complete` transition: log only. -/
def completeRun (st : BStep) : Except GoError BStep := .ok st

/-- The retry policy `createBackupFSM` installs:
`{MaxRetries 3, WaitIncrements 1s, MaxWait 10s}`. -/
def backupRetryConfig : RetryExponentialBackoffConfig :=
  { maxRetries := 3, waitIncrements := 1000000000, maxWait := 10000000000 }

/-- One `FSM.Run` of a backup transition whose body is deterministic within
the run (each attempt sees the same outcome): the retry loop under the FSM's
policy, with enough fuel that the out-of-fuel marker is unreachable. -/
def runStepDet (cfg : RetryExponentialBackoffConfig)
    (step : BStep → Except GoError BStep) (st : BStep) : Except RetryErr BStep :=
  match fsmAttemptLoop (fun _ => step st) (newRetryExponentialBackoff cfg) 0
      (cfg.maxRetries.toNat + 2) with
  | .success d _ _ => .ok d
  | .failed e _ _ => .error e
  | .fuelOut => .error .retryAttemptsExhausted

/-- The backup FSM action sequence for one dataset, as `BackupConcurrent`
drives it: `get_parent, create_snapshot, create_backup_manifest, add_orphan`,
then `upload_snapshot`, then `update_store, complete`; the first failing
transition aborts the sequence (`RunSequence`).  Returns the surfaced result
together with the store and the list of successful saves at that point. -/
def runBackupFSM (z : ZFSOracle) (so : StorageOracle) (now : Int) (s0 : Store)
    (dataset : String) (id : Nat) (typ : BackupType) :
    Except RetryErr Unit × Store × List Store :=
  let st0 : BStep :=
    { store := s0, saves := [],
      data := { dataset := dataset, backupID := id, backupType := typ,
                parentBackup := none, manifest := none, snapshotSize := 0 } }
  match runStepDet backupRetryConfig (getParentRun z) st0 with
  | .error e => (.error e, st0.store, st0.saves)
  | .ok st1 =>
    match runStepDet backupRetryConfig (createSnapshotRun z) st1 with
    | .error e => (.error e, st1.store, st1.saves)
    | .ok st2 =>
      match runStepDet backupRetryConfig (createBackupManifestRun now) st2 with
      | .error e => (.error e, st2.store, st2.saves)
      | .ok st3 =>
        match runStepDet backupRetryConfig (addOrphanRun now so) st3 with
        | .error e => (.error e, st3.store, st3.saves)
        | .ok st4 =>
          match runStepDet backupRetryConfig (uploadSnapshotRun z so) st4 with
          | .error e => (.error e, st4.store, st4.saves)
          | .ok st5 =>
            match runStepDet backupRetryConfig (updateStoreRun now so) st5 with
            | .error e => (.error e, st5.store, st5.saves)
            | .ok st6 =>
              match runStepDet backupRetryConfig completeRun st6 with
              | .error e => (.error e, st6.store, st6.saves)
              | .ok st7 => (.ok (), st7.store, st7.saves)

/-- C5 (confirmed): on a store with no full backup for the dataset, running a
diff backup fails in `get_parent` with `ParentNotFound` wrapped as an
unrecoverable error (surfaced unchanged by the retry policy), and the store
is unchanged with nothing saved. -/
theorem C5_diff_without_full_fails (z : ZFSOracle) (so : StorageOracle) (now : Int)
    (s0 : Store) (dataset : String) (id : Nat)
    (hNoFull : ∀ p ∈ s0.backups,
      ¬((p : Nat × Backup).2.type = BackupType.full ∧ p.2.dataset = dataset)) :
    runBackupFSM z so now s0 dataset id BackupType.diff =
      (.error (.passthrough (newUnrecoverableError (.vErr VErr.parentNotFound))), s0, []) := by
  have hlf : latestFull s0.backups dataset = none := latestFull_eq_none s0.backups dataset hNoFull
  have hgp : getParentRun z
      { store := s0, saves := [],
        data := { dataset := dataset, backupID := id, backupType := BackupType.diff,
                  parentBackup := none, manifest := none, snapshotSize := 0 } } =
      .error (newUnrecoverableError (.vErr VErr.parentNotFound)) := by
    unfold getParentRun getParent
    simp [hlf]
  have hstep : runStepDet backupRetryConfig (getParentRun z)
      { store := s0, saves := [],
        data := { dataset := dataset, backupID := id, backupType := BackupType.diff,
                  parentBackup := none, manifest := none, snapshotSize := 0 } } =
      .error (.passthrough (newUnrecoverableError (.vErr VErr.parentNotFound))) := by
    unfold runStepDet
    rw [show backupRetryConfig.maxRetries.toNat + 2 = 4 + 1 from by rfl]
    simp only [fsmAttemptLoop, hgp, retryAfter, newRetryExponentialBackoff,
      newUnrecoverableError]
    simp
  simp only [runBackupFSM, hstep]

/-- A store with no backups at all, for the C5 witness. -/
def exC5Empty : Store :=
  { version := 1, createdAt := 0, backups := [], orphans := [], encryption := "",
    managedDatasets := ["tank"], hash := none }

/-- A trivially succeeding provider oracle. -/
def exC5ZFS : ZFSOracle :=
  { snapshotExists := fun _ _ => .ok true,
    createSnapshot := fun _ _ => .ok (),
    sendSnapshot := fun _ _ _ => .ok 0 }

/-- A trivially succeeding storage oracle. -/
def exC5Storage : StorageOracle :=
  { openSnapshotWriteStream := fun _ _ => .ok (),
    saveStoreContent := fun _ => .ok () }

/-- Witness for C5: a diff backup of "tank" against an empty manifest fails
with the unrecoverable `ParentNotFound` and leaves the store untouched with
no saves. -/
theorem C5_diff_without_full_fails_witness :
    runBackupFSM exC5ZFS exC5Storage 1000 exC5Empty "tank" 9 BackupType.diff =
      (.error (.passthrough (newUnrecoverableError (.vErr VErr.parentNotFound))), exC5Empty, []) := by
  refine C5_diff_without_full_fails exC5ZFS exC5Storage 1000 exC5Empty "tank" 9 ?_
  intro p hp
  simp [exC5Empty] at hp

end Zfsbackrest
